import Mathlib

/-!
Shallow embedding of the voice-call session engine of the Canada Care
front-end (three near-duplicate React components; the two that the claims
cite are modelled here).  Naming convention:

* the `...A` definitions embed the first component of `src/unnamed/part_000`
  (the variant with the `isClosingRef` guard, the `errorOccurred` argument
  and the recording mixer);
* the `...B` definitions embed `src/unnamed/part_001` (the variant whose
  `handleStop` has no closing guard and no error argument).

Real-valued quantities (audio-context time, buffer durations, float
samples) are modelled over `ℚ`; strings are Lean `String`s; the JS `Set`
of active `AudioBufferSourceNode`s is modelled as a list of
`(scheduledStart, duration)` pairs in insertion order; DOM/WebAudio
side effects performed by teardown are reified as a `TeardownAction`
trace so that "performed exactly once" is a statement about traces.
-/

/-- Mirrors `AppStatus` from `types.ts`. -/
inductive AppStatus where
  | IDLE
  | CONNECTING
  | CONNECTED
  | ERROR
deriving DecidableEq, Repr

/-- The two roles of `TranscriptionEntry.type` (`'user' | 'agent'`). -/
inductive Role where
  | user
  | agent
deriving DecidableEq, Repr

/-- Mirrors `TranscriptionEntry` from `types.ts`; the `Date` timestamp is
abstracted to a natural-number clock value supplied by the environment. -/
structure TranscriptionEntry where
  type : Role
  text : String
  timestamp : ℕ
deriving DecidableEq, Repr

/-- The fields of `LiveServerMessage.serverContent` that `onmessage`
consumes.  An inbound audio part is abstracted to the duration of its
decoded buffer (the only attribute the scheduling logic reads). -/
structure ServerMessage where
  audioData : Option ℚ := none
  interrupted : Bool := false
  inputTranscription : Option String := none
  outputTranscription : Option String := none
  turnComplete : Bool := false

/-- Environment of a single callback invocation: the output audio
context's `currentTime` and the wall clock used for `new Date()`. -/
structure MsgEnv where
  currentTime : ℚ
  now : ℕ

/-- The React component's state and refs that the session logic touches.
`session` models `sessionPromiseRef.current != null`; `recorder` is
`none` when `recorderRef.current` is null and `some active` otherwise,
where `active` is `state !== 'inactive'`; `guardClearPending` records
that the `setTimeout` resetting `isClosingRef` has been scheduled. -/
structure AppState where
  status : AppStatus
  isProcessing : Bool
  transcriptions : List TranscriptionEntry
  isMuted : Bool
  errorMessage : Option String
  hasAudioData : Bool
  nextStartTime : ℚ
  activeSources : List (ℚ × ℚ)
  closing : Bool
  guardClearPending : Bool
  session : Bool
  recorder : Option Bool
  processorNode : Bool
  sourceNode : Bool
  micMixerNode : Bool
  stream : Bool
  userBuf : String
  agentBuf : String
  recordedChunks : List (List ℕ)
  audioUrl : Option (List ℕ)

/-- Audio branch of `onmessage` (part_000 lines 195-216): clamp the clock
to `currentTime`, schedule the decoded buffer at the clamped value,
advance the clock by its duration, register the source in the active
set. -/
def stepAudio (env : MsgEnv) (msg : ServerMessage) (s : AppState) : AppState :=
  match msg.audioData with
  | some d =>
      { s with
        isProcessing := false
        nextStartTime := max s.nextStartTime env.currentTime + d
        activeSources := s.activeSources ++ [(max s.nextStartTime env.currentTime, d)] }
  | none => s

/-- Interruption branch of `onmessage` (part_000 lines 218-223): stop and
clear every active source and reset the playback clock to zero. -/
def stepInterrupt (msg : ServerMessage) (s : AppState) : AppState :=
  if msg.interrupted then
    { s with activeSources := [], nextStartTime := 0, isProcessing := false }
  else s

/-- Input-transcription branch of `onmessage` (part_000 lines 225-228). -/
def stepInput (msg : ServerMessage) (s : AppState) : AppState :=
  match msg.inputTranscription with
  | some t => { s with userBuf := s.userBuf ++ t, isProcessing := true }
  | none => s

/-- Output-transcription branch of `onmessage` (part_000 lines 229-231). -/
def stepOutput (msg : ServerMessage) (s : AppState) : AppState :=
  match msg.outputTranscription with
  | some t => { s with agentBuf := s.agentBuf ++ t }
  | none => s

/-- JS `String.prototype.trim`: drop leading and trailing whitespace.
(Defined over the character list because Lean's own `String.trim` is not
kernel-reducible; behaviourally it is the same operation.) -/
def jsTrim (s : String) : String :=
  ⟨((s.data.dropWhile Char.isWhitespace).reverse.dropWhile Char.isWhitespace).reverse⟩

/-- Turn-complete branch of `onmessage` (part_000 lines 232-239): trim
both buffers, append a user entry when non-empty then an agent entry when
non-empty (the two `setTranscriptions` calls in source order, with the JS
truthiness test `if (userText)` meaning "non-empty"), reset both
buffers. -/
def stepTurn (env : MsgEnv) (msg : ServerMessage) (s : AppState) : AppState :=
  if msg.turnComplete then
    { s with
      transcriptions := s.transcriptions
        ++ (if jsTrim s.userBuf = "" then []
            else [{ type := Role.user, text := jsTrim s.userBuf, timestamp := env.now }])
        ++ (if jsTrim s.agentBuf = "" then []
            else [{ type := Role.agent, text := jsTrim s.agentBuf, timestamp := env.now }])
      userBuf := ""
      agentBuf := ""
      isProcessing := false }
  else s

/-- The `onmessage` callback (part_000 lines 194-240; part_001 lines
180-223 is the same logic): the four branches run in source order on the
same invocation. -/
def onmessage (env : MsgEnv) (msg : ServerMessage) (s : AppState) : AppState :=
  stepTurn env msg (stepOutput msg (stepInput msg (stepInterrupt msg (stepAudio env msg s))))

/-- A message carrying only an inbound audio chunk of duration `d`. -/
def audioMsg (d : ℚ) : ServerMessage := { audioData := some d }

/-- A message carrying only the `turnComplete` flag. -/
def msgTC : ServerMessage := { turnComplete := true }

/-- Feed a sequence of audio-only messages through `onmessage`; the i-th
chunk is the pair (arrival-time `currentTime`, decoded duration). -/
def playAll (s : AppState) : List (ℚ × ℚ) → AppState
  | [] => s
  | (t, d) :: rest => playAll (onmessage ⟨t, 0⟩ (audioMsg d) s) rest

/-- Derived recurrence for the scheduled start times: the i-th start is
`max nextStart currentTime` and the clock advances by the duration. -/
def scheduleStarts : ℚ → List (ℚ × ℚ) → List ℚ
  | _, [] => []
  | ns, (t, d) :: rest => max ns t :: scheduleStarts (max ns t + d) rest

/-- Derived recurrence for the playback clock after a chunk sequence. -/
def nextStartAfter : ℚ → List (ℚ × ℚ) → ℚ
  | ns, [] => ns
  | ns, (t, d) :: rest => nextStartAfter (max ns t + d) rest

/-- Truncation toward zero, the integer conversion JS applies to a Number
before storing it in an `Int16Array` slot. -/
def ratTrunc (q : ℚ) : ℤ := if 0 ≤ q then ⌊q⌋ else ⌈q⌉

/-- Reduction of an integer modulo 2^16 into the signed 16-bit range,
the wraparound a JS `Int16Array` store performs. -/
def wrap16 (n : ℤ) : ℤ :=
  if n % 65536 < 32768 then n % 65536 else n % 65536 - 65536

/-- One sample of the capture loop `int16[i] = inputData[i] * 32768`
(part_000 lines 267-269): scale by 32768, truncate toward zero, wrap to
16 bits. -/
def captureConvert (sample : ℚ) : ℤ := wrap16 (ratTrunc (sample * 32768))

/-- Modelled from the spec's words, for comparison with `captureConvert`:
"round(sample * 32768), clamped to the legal int16 range". -/
def specConvert (sample : ℚ) : ℤ :=
  max (-32768) (min 32767 (round (sample * 32768)))

/-- An outbound PCM packet: the converted samples plus the format tag
(the base64 transport encoding is reversible and is not modelled). -/
structure MediaPacket where
  data : List ℤ
  mimeType : String
deriving DecidableEq, Repr

/-- The `processor.onaudioprocess` callback of part_000 (lines 261-280).
JS semantics note: `isMuted` is a `useState` value read from the closure
created when `handleStart` wired the callback, so it is the value
captured at wiring time (`capturedMuted`); `isClosingRef.current` and
`sessionPromiseRef.current` are refs and are read live from the current
state.  Returns the packet passed to `session.sendRealtimeInput`, or
`none` when no send happens. -/
def onaudioprocessA (capturedMuted : Bool) (s : AppState) (frame : List ℚ) :
    Option MediaPacket :=
  if capturedMuted || s.closing || !s.session then none
  else some { data := frame.map captureConvert, mimeType := "audio/pcm;rate=16000" }

/-- The mute button handler `setIsMuted(!isMuted)`. -/
def toggleMute (s : AppState) : AppState := { s with isMuted := !s.isMuted }

/-- The observable side effects that teardown can perform, reified so
that "exactly once" is a statement about emitted traces. -/
inductive TeardownAction where
  | closeConnection
  | stopRecorder
  | disconnectProcessor
  | disconnectSource
  | disconnectMicMixer
  | stopDeviceTracks
  | stopPlaybackSource
  | resetClock
  | setStatusTo (st : AppStatus)
  | setProcessingOff
  | scheduleGuardClear
deriving DecidableEq, Repr

/-- Resource-release actions: the teardown effects that must never be
repeated (as opposed to idempotent flag/clock writes). -/
def isResourceRelease : TeardownAction → Bool
  | TeardownAction.closeConnection => true
  | TeardownAction.stopRecorder => true
  | TeardownAction.disconnectProcessor => true
  | TeardownAction.disconnectSource => true
  | TeardownAction.disconnectMicMixer => true
  | TeardownAction.stopDeviceTracks => true
  | TeardownAction.stopPlaybackSource => true
  | _ => false

/-- The `handleStop` of part_000 (lines 73-122): checks the `isClosingRef`
guard and returns immediately when set; otherwise sets the guard, sets the
status from `errorOccurred`, then tears down (close session, stop active
recorder, disconnect processor/source/mic-to-mixer nodes, stop device
tracks, stop and clear active playback sources, reset the clock, clear
the processing flag) and schedules the delayed guard reset.  Returns the
new state and the trace of performed effects in source order. -/
def handleStopA (errorOccurred : Bool) (s : AppState) :
    AppState × List TeardownAction :=
  if s.closing then (s, [])
  else
    let newStatus := if errorOccurred then AppStatus.ERROR else AppStatus.IDLE
    let a1 := if s.session then [TeardownAction.closeConnection] else []
    let a2 := if s.recorder = some true then [TeardownAction.stopRecorder] else []
    let a3 := if s.processorNode then [TeardownAction.disconnectProcessor] else []
    let a4 := if s.sourceNode then [TeardownAction.disconnectSource] else []
    let a5 := if s.micMixerNode then [TeardownAction.disconnectMicMixer] else []
    let a6 := if s.stream then [TeardownAction.stopDeviceTracks] else []
    let a7 := s.activeSources.map fun _ => TeardownAction.stopPlaybackSource
    ({ s with
        closing := true
        status := newStatus
        session := false
        recorder := if s.recorder = some true then some false else s.recorder
        processorNode := false
        sourceNode := false
        micMixerNode := false
        stream := false
        activeSources := []
        nextStartTime := 0
        isProcessing := false
        guardClearPending := true },
     [TeardownAction.setStatusTo newStatus] ++ a1 ++ a2 ++ a3 ++ a4 ++ a5 ++ a6 ++ a7
       ++ [TeardownAction.resetClock, TeardownAction.setProcessingOff,
           TeardownAction.scheduleGuardClear])

/-- The `handleStop` of part_001 (lines 90-119): no closing guard, no
error argument; closes the session, stops the active recorder,
disconnects processor and source nodes, stops device tracks, stops and
clears active playback sources, resets the clock, sets status IDLE and
clears the processing flag, in source order. -/
def handleStopB (s : AppState) : AppState × List TeardownAction :=
  let a1 := if s.session then [TeardownAction.closeConnection] else []
  let a2 := if s.recorder = some true then [TeardownAction.stopRecorder] else []
  let a3 := if s.processorNode then [TeardownAction.disconnectProcessor] else []
  let a4 := if s.sourceNode then [TeardownAction.disconnectSource] else []
  let a5 := if s.stream then [TeardownAction.stopDeviceTracks] else []
  let a6 := s.activeSources.map fun _ => TeardownAction.stopPlaybackSource
  ({ s with
      session := false
      recorder := if s.recorder = some true then some false else s.recorder
      processorNode := false
      sourceNode := false
      stream := false
      activeSources := []
      nextStartTime := 0
      status := AppStatus.IDLE
      isProcessing := false },
   a1 ++ a2 ++ a3 ++ a4 ++ a5 ++ a6
     ++ [TeardownAction.resetClock, TeardownAction.setStatusTo AppStatus.IDLE,
         TeardownAction.setProcessingOff])

/-- The `onerror` callback of part_000 (lines 241-246): no-op when already
closing, otherwise surfaces the transient message and forces
`handleStop(true)`. -/
def onerrorA (s : AppState) : AppState × List TeardownAction :=
  if s.closing then (s, [])
  else handleStopA true { s with errorMessage := some "Line unstable. Resetting connection..." }

/-- The `onclose` callback of part_000 (lines 247-250): no-op when already
closing, otherwise a silent `handleStop()`. -/
def oncloseA (s : AppState) : AppState × List TeardownAction :=
  if s.closing then (s, []) else handleStopA false s

/-- The `onerror` callback of part_001 (lines 224-228): surfaces the
message and calls the (error-flag-free) `handleStop`. -/
def onerrorB (s : AppState) : AppState × List TeardownAction :=
  handleStopB { s with errorMessage := some "Network issue. Reconnecting..." }

/-- The `recorder.ondataavailable` handler (part_000 lines 183-185):
pushes the blob only when its size is positive. -/
def recorderOndata (data : List ℕ) (s : AppState) : AppState :=
  if 0 < data.length then { s with recordedChunks := s.recordedChunks ++ [data] }
  else s

/-- The `recorder.onstop` handler (part_000 lines 186-190; part_001 lines
172-176): build the artifact blob from whatever chunks accumulated
(possibly none) and set the `hasAudioData` flag, unconditionally. -/
def recorderOnstop (s : AppState) : AppState :=
  { s with audioUrl := some s.recordedChunks.flatten, hasAudioData := true }

/-- A message carrying exactly one partial-transcription delta for one
role, as delivered by the remote service within a turn. -/
def deltaMsg : Role × String → ServerMessage
  | (Role.user, t) => { inputTranscription := some t }
  | (Role.agent, t) => { outputTranscription := some t }

/-- Process a sequence of partial-transcription deltas through
`onmessage` in arrival order. -/
def processDeltas (env : MsgEnv) (s : AppState) : List (Role × String) → AppState
  | [] => s
  | ev :: rest => processDeltas env (onmessage env (deltaMsg ev) s) rest

/-- The user-role deltas of an event sequence, in arrival order. -/
def userTexts : List (Role × String) → List String
  | [] => []
  | (Role.user, t) :: rest => t :: userTexts rest
  | (Role.agent, _) :: rest => userTexts rest

/-- The agent-role deltas of an event sequence, in arrival order. -/
def agentTexts : List (Role × String) → List String
  | [] => []
  | (Role.user, _) :: rest => agentTexts rest
  | (Role.agent, t) :: rest => t :: agentTexts rest

/-- The component state immediately after mount: every ref null, every
flag false, the playback clock at zero, status IDLE. -/
def freshState : AppState :=
  { status := AppStatus.IDLE
    isProcessing := false
    transcriptions := []
    isMuted := false
    errorMessage := none
    hasAudioData := false
    nextStartTime := 0
    activeSources := []
    closing := false
    guardClearPending := false
    session := false
    recorder := none
    processorNode := false
    sourceNode := false
    micMixerNode := false
    stream := false
    userBuf := ""
    agentBuf := ""
    recordedChunks := []
    audioUrl := none }

/-- A representative mid-call state: connected, unmuted, all resources
live, nothing scheduled yet. -/
def connState : AppState :=
  { status := AppStatus.CONNECTED
    isProcessing := false
    transcriptions := []
    isMuted := false
    errorMessage := none
    hasAudioData := false
    nextStartTime := 0
    activeSources := []
    closing := false
    guardClearPending := false
    session := true
    recorder := some true
    processorNode := true
    sourceNode := true
    micMixerNode := true
    stream := true
    userBuf := ""
    agentBuf := ""
    recordedChunks := []
    audioUrl := none }

/-- A mid-call state with playback in flight: one active source and an
advanced playback clock. -/
def busyState : AppState :=
  { connState with activeSources := [(0, 2)], nextStartTime := 9 }

/-- A message carrying only the `interrupted` flag. -/
def interruptMsg : ServerMessage := { interrupted := true }

/-- Right-fold concatenation of a list of text deltas (the total text a
buffer accumulates from a sequence of appends). -/
def concatTexts (l : List String) : String := l.foldr (fun a b => a ++ b) ""

/-- A mid-call state whose transcript buffers hold partial text with
surrounding whitespace, just before a turn-complete signal. -/
def demoTurnState : AppState :=
  { connState with userBuf := " hi ", agentBuf := " yo " }

/-- A mid-call state whose transcript buffers hold only whitespace. -/
def wsTurnState : AppState :=
  { connState with userBuf := "   ", agentBuf := " " }

/-- Processing an audio-only message is exactly the scheduling step of
part_000 lines 198-215. -/
theorem onmessage_audio (env : MsgEnv) (d : ℚ) (s : AppState) :
    onmessage env (audioMsg d) s =
      { s with
        isProcessing := false
        nextStartTime := max s.nextStartTime env.currentTime + d
        activeSources := s.activeSources ++ [(max s.nextStartTime env.currentTime, d)] } :=
  rfl

/-- Characterisation of the i-th computed start time: it is
`max nextStart currentTime` where `nextStart` is the clock value left by
the preceding chunks. -/
theorem scheduleStarts_get :
    ∀ (cs : List (ℚ × ℚ)) (ns : ℚ) (i : ℕ) (t d : ℚ), cs[i]? = some (t, d) →
      (scheduleStarts ns cs)[i]? = some (max (nextStartAfter ns (cs.take i)) t) := by
  intro cs
  induction cs with
  | nil => intro ns i t d h; simp at h
  | cons c rest ih =>
    obtain ⟨ct, cd⟩ := c
    intro ns i t d h
    cases i with
    | zero =>
      simp at h
      obtain ⟨h1, h2⟩ := h
      subst h1
      subst h2
      simp [scheduleStarts, nextStartAfter]
    | succ n =>
      simp at h
      simpa [scheduleStarts, nextStartAfter] using ih (max ns ct + cd) n t d h

/-- The clock after the first `i + 1` chunks is the i-th start plus the
i-th duration. -/
theorem nextStartAfter_take :
    ∀ (cs : List (ℚ × ℚ)) (ns : ℚ) (i : ℕ) (t d : ℚ), cs[i]? = some (t, d) →
      nextStartAfter ns (cs.take (i + 1)) = max (nextStartAfter ns (cs.take i)) t + d := by
  intro cs
  induction cs with
  | nil => intro ns i t d h; simp at h
  | cons c rest ih =>
    obtain ⟨ct, cd⟩ := c
    intro ns i t d h
    cases i with
    | zero =>
      simp at h
      obtain ⟨h1, h2⟩ := h
      subst h1
      subst h2
      simp [nextStartAfter]
    | succ n =>
      simp at h
      simpa [nextStartAfter] using ih (max ns ct + cd) n t d h

/-- Running the `onmessage` audio branch over a chunk sequence leaves the
playback clock at the value of the derived recurrence. -/
theorem playAll_nextStart :
    ∀ (cs : List (ℚ × ℚ)) (s : AppState),
      (playAll s cs).nextStartTime = nextStartAfter s.nextStartTime cs := by
  intro cs
  induction cs with
  | nil => intro s; rfl
  | cons c rest ih =>
    obtain ⟨t, d⟩ := c
    intro s
    simp [playAll, onmessage_audio, ih, nextStartAfter]

/-- Running the `onmessage` audio branch over a chunk sequence registers
exactly the derived start times (paired with the durations) in the
active-source set, in order. -/
theorem playAll_sources :
    ∀ (cs : List (ℚ × ℚ)) (s : AppState),
      (playAll s cs).activeSources
        = s.activeSources ++ (scheduleStarts s.nextStartTime cs).zip (cs.map Prod.snd) := by
  intro cs
  induction cs with
  | nil => intro s; simp [playAll]
  | cons c rest ih =>
    obtain ⟨t, d⟩ := c
    intro s
    simp [playAll, onmessage_audio, ih, scheduleStarts]

/-- Claim C1: for a sequence of inbound decoded audio chunks with
durations `d1..dn` arriving at output-context times `t1..tn` (no
interruption, no stop in between), the start computed for chunk `i` is
`max (nextStart before chunk i) (currentTime at arrival)`, the clock
after chunk `i` is `start i + d i`, and consecutive starts never
overlap: `start (i+1) ≥ start i + d i`. -/
theorem playback_schedule_correct (s : AppState) (cs : List (ℚ × ℚ)) :
    ((playAll s cs).nextStartTime = nextStartAfter s.nextStartTime cs
      ∧ (playAll s cs).activeSources
          = s.activeSources ++ (scheduleStarts s.nextStartTime cs).zip (cs.map Prod.snd))
    ∧ (∀ (i : ℕ) (t d : ℚ), cs[i]? = some (t, d) →
        (scheduleStarts s.nextStartTime cs)[i]?
            = some (max (nextStartAfter s.nextStartTime (cs.take i)) t)
          ∧ nextStartAfter s.nextStartTime (cs.take (i + 1))
            = max (nextStartAfter s.nextStartTime (cs.take i)) t + d)
    ∧ (∀ (i : ℕ) (t d t2 d2 a b : ℚ),
        cs[i]? = some (t, d) → cs[i + 1]? = some (t2, d2) →
        (scheduleStarts s.nextStartTime cs)[i]? = some a →
        (scheduleStarts s.nextStartTime cs)[i + 1]? = some b →
        a + d ≤ b) := by
  refine ⟨⟨playAll_nextStart cs s, playAll_sources cs s⟩, ?_, ?_⟩
  · intro i t d h
    exact ⟨scheduleStarts_get cs s.nextStartTime i t d h,
           nextStartAfter_take cs s.nextStartTime i t d h⟩
  · intro i t d t2 d2 a b h1 h2 ha hb
    have e1 := scheduleStarts_get cs s.nextStartTime i t d h1
    have e2 := scheduleStarts_get cs s.nextStartTime (i + 1) t2 d2 h2
    have e3 := nextStartAfter_take cs s.nextStartTime i t d h1
    rw [ha] at e1
    rw [hb] at e2
    have ea : a = max (nextStartAfter s.nextStartTime (cs.take i)) t := Option.some.inj e1
    have eb : b = max (nextStartAfter s.nextStartTime (cs.take (i + 1))) t2 := Option.some.inj e2
    rw [eb, e3, ← ea]
    exact le_max_left _ _

/-- Witness for C1: three one-second chunks all arriving at
`currentTime = 0` from the mid-call state. -/
theorem playback_schedule_correct_witness :
    (scheduleStarts connState.nextStartTime [((0 : ℚ), (1 : ℚ)), (0, 1), (0, 1)])[1]?
        = some (max (nextStartAfter connState.nextStartTime
            ([((0 : ℚ), (1 : ℚ)), (0, 1), (0, 1)].take 1)) 0)
    ∧ (playAll connState [((0 : ℚ), (1 : ℚ)), (0, 1), (0, 1)]).nextStartTime
        = nextStartAfter connState.nextStartTime [((0 : ℚ), (1 : ℚ)), (0, 1), (0, 1)] :=
  ⟨((playback_schedule_correct connState [((0 : ℚ), (1 : ℚ)), (0, 1), (0, 1)]).2.1
      1 0 1 rfl).1,
   (playback_schedule_correct connState [((0 : ℚ), (1 : ℚ)), (0, 1), (0, 1)]).1.1⟩

/-- The transcription branches of `onmessage` never touch the active
source set or the playback clock. -/
theorem stepInput_playback (msg : ServerMessage) (s : AppState) :
    (stepInput msg s).activeSources = s.activeSources
    ∧ (stepInput msg s).nextStartTime = s.nextStartTime := by
  cases h : msg.inputTranscription <;> simp [stepInput, h]

/-- The agent-transcription branch never touches the active source set or
the playback clock. -/
theorem stepOutput_playback (msg : ServerMessage) (s : AppState) :
    (stepOutput msg s).activeSources = s.activeSources
    ∧ (stepOutput msg s).nextStartTime = s.nextStartTime := by
  cases h : msg.outputTranscription <;> simp [stepOutput, h]

/-- The turn-complete branch never touches the active source set or the
playback clock. -/
theorem stepTurn_playback (env : MsgEnv) (msg : ServerMessage) (s : AppState) :
    (stepTurn env msg s).activeSources = s.activeSources
    ∧ (stepTurn env msg s).nextStartTime = s.nextStartTime := by
  cases h : msg.turnComplete <;> simp [stepTurn, h]

/-- Claim C4: after processing any message carrying the `interrupted`
flag the active set is empty and the playback clock is zero, so the next
audio chunk (arriving at non-negative `currentTime = t`) is scheduled at
`max 0 t = t`, the real current time, and the clock continues from
`t + d`. -/
theorem interrupt_resets_playback (env : MsgEnv) (msg : ServerMessage) (s : AppState)
    (h : msg.interrupted = true) :
    ((onmessage env msg s).activeSources = [] ∧ (onmessage env msg s).nextStartTime = 0)
    ∧ (∀ t d : ℚ, 0 ≤ t →
        (onmessage ⟨t, 0⟩ (audioMsg d) (onmessage env msg s)).activeSources = [(t, d)]
        ∧ (onmessage ⟨t, 0⟩ (audioMsg d) (onmessage env msg s)).nextStartTime = t + d) := by
  have hI : (stepInterrupt msg (stepAudio env msg s)).activeSources = []
      ∧ (stepInterrupt msg (stepAudio env msg s)).nextStartTime = 0 := by
    simp [stepInterrupt, h]
  have key : (onmessage env msg s).activeSources = []
      ∧ (onmessage env msg s).nextStartTime = 0 := by
    unfold onmessage
    rw [(stepTurn_playback env msg _).1, (stepTurn_playback env msg _).2,
        (stepOutput_playback msg _).1, (stepOutput_playback msg _).2,
        (stepInput_playback msg _).1, (stepInput_playback msg _).2]
    exact hI
  refine ⟨key, ?_⟩
  intro t d ht
  rw [onmessage_audio]
  constructor
  · simp [key.1, key.2, max_eq_right ht]
  · simp [key.2, max_eq_right ht]

/-- Witness for C4: an interruption arriving at `currentTime = 5` while a
source is active and the clock sits at 9, followed by a 2-second chunk at
`currentTime = 3`. -/
theorem interrupt_resets_playback_witness :
    ((onmessage ⟨5, 0⟩ interruptMsg busyState).activeSources = []
      ∧ (onmessage ⟨5, 0⟩ interruptMsg busyState).nextStartTime = 0)
    ∧ ((onmessage ⟨3, 0⟩ (audioMsg 2) (onmessage ⟨5, 0⟩ interruptMsg busyState)).activeSources
          = [(3, 2)]
      ∧ (onmessage ⟨3, 0⟩ (audioMsg 2) (onmessage ⟨5, 0⟩ interruptMsg busyState)).nextStartTime
          = 3 + 2) := by
  have P := interrupt_resets_playback ⟨5, 0⟩ interruptMsg busyState rfl
  exact ⟨P.1, P.2 3 2 (by norm_num)⟩

/-- Processing a user delta only appends to the user buffer (and raises
the processing indicator). -/
theorem onmessage_deltaUser (env : MsgEnv) (txt : String) (s : AppState) :
    onmessage env (deltaMsg (Role.user, txt)) s
      = { s with userBuf := s.userBuf ++ txt, isProcessing := true } :=
  rfl

/-- Processing an agent delta only appends to the agent buffer. -/
theorem onmessage_deltaAgent (env : MsgEnv) (txt : String) (s : AppState) :
    onmessage env (deltaMsg (Role.agent, txt)) s
      = { s with agentBuf := s.agentBuf ++ txt } :=
  rfl

/-- Claim C6: on a turn-complete signal both buffers are trimmed, a user
entry is committed first when its trimmed text is non-empty, then an
agent entry when its trimmed text is non-empty, both stamped with the
commit time, and the buffers are reset; in particular when both are
non-empty the user entry immediately precedes the agent entry.  The
second conjunct shows the buffers reaching the commit depend only on the
per-role concatenation of the partial deltas, not on their interleaved
arrival order. -/
theorem turn_commit_user_first :
    (∀ (env : MsgEnv) (s : AppState),
        ((onmessage env msgTC s).transcriptions
            = s.transcriptions
              ++ (if jsTrim s.userBuf = "" then []
                  else [{ type := Role.user, text := jsTrim s.userBuf, timestamp := env.now }])
              ++ (if jsTrim s.agentBuf = "" then []
                  else [{ type := Role.agent, text := jsTrim s.agentBuf, timestamp := env.now }])
          ∧ (onmessage env msgTC s).userBuf = "" ∧ (onmessage env msgTC s).agentBuf = "")
        ∧ (jsTrim s.userBuf ≠ "" → jsTrim s.agentBuf ≠ "" →
            (onmessage env msgTC s).transcriptions
              = s.transcriptions
                ++ [{ type := Role.user, text := jsTrim s.userBuf, timestamp := env.now },
                    { type := Role.agent, text := jsTrim s.agentBuf, timestamp := env.now }]))
    ∧ (∀ (env : MsgEnv) (s : AppState) (evs : List (Role × String)),
        (processDeltas env s evs).userBuf = s.userBuf ++ concatTexts (userTexts evs)
        ∧ (processDeltas env s evs).agentBuf = s.agentBuf ++ concatTexts (agentTexts evs)) := by
  constructor
  · intro env s
    refine ⟨⟨rfl, rfl, rfl⟩, ?_⟩
    intro h1 h2
    have e : onmessage env msgTC s = stepTurn env msgTC s := rfl
    rw [e]
    simp [stepTurn, msgTC, h1, h2]
  · intro env s evs
    induction evs generalizing s with
    | nil => simp [processDeltas, userTexts, agentTexts, concatTexts, String.append_empty]
    | cons ev rest ih =>
      obtain ⟨r, txt⟩ := ev
      cases r
      · have e := onmessage_deltaUser env txt s
        constructor
        · rw [processDeltas, e]
          rw [(ih { s with userBuf := s.userBuf ++ txt, isProcessing := true }).1]
          simp [userTexts, concatTexts, String.append_assoc]
        · rw [processDeltas, e]
          rw [(ih { s with userBuf := s.userBuf ++ txt, isProcessing := true }).2]
          simp [agentTexts]
      · have e := onmessage_deltaAgent env txt s
        constructor
        · rw [processDeltas, e]
          rw [(ih { s with agentBuf := s.agentBuf ++ txt }).1]
          simp [userTexts]
        · rw [processDeltas, e]
          rw [(ih { s with agentBuf := s.agentBuf ++ txt }).2]
          simp [agentTexts, concatTexts, String.append_assoc]

/-- Witness for C6: a turn with both buffers holding whitespace-padded
text, committed at time 5. -/
theorem turn_commit_user_first_witness :
    (onmessage ⟨0, 5⟩ msgTC demoTurnState).transcriptions
      = demoTurnState.transcriptions
        ++ [{ type := Role.user, text := jsTrim demoTurnState.userBuf, timestamp := 5 },
            { type := Role.agent, text := jsTrim demoTurnState.agentBuf, timestamp := 5 }] :=
  (turn_commit_user_first.1 ⟨0, 5⟩ demoTurnState).2 (by decide) (by decide)

/-- Claim C9 (implicit): a turn-complete signal arriving while both
buffers hold only whitespace appends nothing to the committed transcript
and still resets both buffers to empty. -/
theorem whitespace_turn_no_commit (env : MsgEnv) (s : AppState)
    (hu : jsTrim s.userBuf = "") (ha : jsTrim s.agentBuf = "") :
    (onmessage env msgTC s).transcriptions = s.transcriptions
    ∧ (onmessage env msgTC s).userBuf = "" ∧ (onmessage env msgTC s).agentBuf = "" := by
  have e : onmessage env msgTC s = stepTurn env msgTC s := rfl
  rw [e]
  simp [stepTurn, msgTC, hu, ha]

/-- Witness for C9: a turn-complete signal at time 7 on whitespace-only
buffers. -/
theorem whitespace_turn_no_commit_witness :
    (onmessage ⟨0, 7⟩ msgTC wsTurnState).transcriptions = wsTurnState.transcriptions
    ∧ (onmessage ⟨0, 7⟩ msgTC wsTurnState).userBuf = ""
    ∧ (onmessage ⟨0, 7⟩ msgTC wsTurnState).agentBuf = "" :=
  whitespace_turn_no_commit ⟨0, 7⟩ wsTurnState (by decide) (by decide)

/-- Claim C2 counterexample: in the part_001 variant a second immediate
`handleStop` does not return immediately — it re-executes the procedure
and re-emits the clock-reset, status and processing-flag effects, because
that variant has no closing guard. -/
theorem stop_twice_counterexample :
    (handleStopB (handleStopB connState).1).2
        = [TeardownAction.resetClock, TeardownAction.setStatusTo AppStatus.IDLE,
           TeardownAction.setProcessingOff]
    ∧ (handleStopB (handleStopB connState).1).2 ≠ [] := by
  exact ⟨rfl, by decide⟩

/-- Claim C2 amended: in the part_000 variant the closing guard is set
before any teardown and a second invocation returns immediately with no
effects, so teardown runs exactly once; in the part_001 variant there is
no guard and a second invocation re-runs the procedure, but emits no
resource-release effect because the first run nulled every handle. -/
theorem stop_twice_amended :
    (∀ (s : AppState) (e1 e2 : Bool), s.closing = false →
        handleStopA e2 (handleStopA e1 s).1 = ((handleStopA e1 s).1, []))
    ∧ (∀ s : AppState,
        (handleStopB (handleStopB s).1).2.filter isResourceRelease = []) := by
  constructor
  · intro s e1 e2 h
    have h1 : (handleStopA e1 s).1.closing = true := by
      unfold handleStopA
      rw [h]
      simp
    conv_lhs => rw [handleStopA]
    rw [h1]
    simp
  · intro s
    by_cases hr : s.recorder = some true <;>
      simp [handleStopB, hr, isResourceRelease]

/-- Witness for C2: double stop from the mid-call state under the
part_000 guard. -/
theorem stop_twice_amended_witness :
    handleStopA false (handleStopA false connState).1 = ((handleStopA false connState).1, []) :=
  stop_twice_amended.1 connState false false rfl

/-- Claim C7 counterexample: in the part_001 variant `onerror` ends in
IDLE, not ERROR (its `handleStop` has no error flag); and in the part_000
variant a `stop(fromError = true)` arriving while already closing leaves
the status untouched (here CONNECTED) rather than setting ERROR. -/
theorem error_status_counterexample :
    (onerrorB connState).1.status = AppStatus.IDLE
    ∧ AppStatus.IDLE ≠ AppStatus.ERROR
    ∧ (handleStopA true { connState with closing := true }).1.status = AppStatus.CONNECTED := by
  exact ⟨rfl, by decide, rfl⟩

/-- Claim C7 amended: in the part_000 variant, when not already closing,
`handleStop(fromError)` sets ERROR when `fromError` and IDLE otherwise;
`onerror` (not closing) surfaces the transient message and forces the
error stop ending in ERROR; `onclose` (not closing) silently stops ending
in IDLE with no message change.  In the part_001 variant `handleStop`
takes no error flag, so even the `onerror` path ends in IDLE. -/
theorem stop_error_status_amended :
    (∀ (e : Bool) (s : AppState), s.closing = false →
        (handleStopA e s).1.status = if e then AppStatus.ERROR else AppStatus.IDLE)
    ∧ (∀ s : AppState, s.closing = false →
        (onerrorA s).1.status = AppStatus.ERROR
        ∧ (onerrorA s).1.errorMessage = some "Line unstable. Resetting connection...")
    ∧ (∀ s : AppState, s.closing = false →
        (oncloseA s).1.status = AppStatus.IDLE
        ∧ (oncloseA s).1.errorMessage = s.errorMessage)
    ∧ (∀ s : AppState, (onerrorB s).1.status = AppStatus.IDLE) := by
  refine ⟨?_, ?_, ?_, ?_⟩
  · intro e s h
    simp [handleStopA, h]
  · intro s h
    constructor <;> simp [onerrorA, handleStopA, h]
  · intro s h
    constructor <;> simp [oncloseA, handleStopA, h]
  · intro s
    simp [onerrorB, handleStopB]

/-- Witness for C7: each clause applied at the mid-call state. -/
theorem stop_error_status_amended_witness :
    (handleStopA true connState).1.status = (if true then AppStatus.ERROR else AppStatus.IDLE)
    ∧ (onerrorA connState).1.status = AppStatus.ERROR
    ∧ (oncloseA connState).1.status = AppStatus.IDLE
    ∧ (onerrorB connState).1.status = AppStatus.IDLE :=
  ⟨stop_error_status_amended.1 true connState rfl,
   (stop_error_status_amended.2.1 connState rfl).1,
   (stop_error_status_amended.2.2.1 connState rfl).1,
   stop_error_status_amended.2.2.2 connState⟩

/-- Claim C10 (implicit): calling stop on the freshly-mounted state (no
connection handle, recorder, nodes or stream, empty active set) is total
and safe in both cited variants: the emitted trace contains no
resource-release action, the playback clock stays at 0, the active set
stays empty, no error message appears, and the status ends IDLE — for
part_000's `handleStop` (`handleStopA`) and part_001's (`handleStopB`)
alike. -/
theorem stop_without_session_safe :
    ((handleStopA false freshState).1.status = AppStatus.IDLE
      ∧ (handleStopA false freshState).1.nextStartTime = 0
      ∧ (handleStopA false freshState).1.activeSources = []
      ∧ (handleStopA false freshState).1.errorMessage = none
      ∧ (handleStopA false freshState).2.filter isResourceRelease = [])
    ∧ ((handleStopB freshState).1.status = AppStatus.IDLE
      ∧ (handleStopB freshState).1.nextStartTime = 0
      ∧ (handleStopB freshState).1.activeSources = []
      ∧ (handleStopB freshState).1.errorMessage = none
      ∧ (handleStopB freshState).2.filter isResourceRelease = []) := by
  exact ⟨⟨rfl, rfl, rfl, rfl, rfl⟩, ⟨rfl, rfl, rfl, rfl, rfl⟩⟩

/-- A value already inside the signed 16-bit range passes through the
wraparound unchanged. -/
theorem wrap16_eq_self (n : ℤ) (h1 : -32768 ≤ n) (h2 : n < 32768) : wrap16 n = n := by
  unfold wrap16
  split <;> omega

/-- Claim C3 counterexample: the code's conversion wraps at the boundary
and truncates, while the claim's round-and-clamp does not: input `1.0`
wraps to `-32768` instead of clamping to `32767`, and `3/65536` (whose
scaled value is `1.5`) truncates to `1` where rounding gives `2`. -/
theorem capture_convert_counterexample :
    captureConvert 1 = -32768
    ∧ specConvert 1 = 32767
    ∧ captureConvert 1 ≠ specConvert 1
    ∧ captureConvert (3 / 65536) = 1
    ∧ specConvert (3 / 65536) = 2 := by
  have c1 : captureConvert 1 = -32768 := by
    norm_num [captureConvert, ratTrunc, wrap16]
  have c2 : specConvert 1 = 32767 := by
    norm_num [specConvert, round_eq]
  refine ⟨c1, c2, ?_, ?_, ?_⟩
  · rw [c1, c2]
    decide
  · norm_num [captureConvert, ratTrunc, wrap16]
  · norm_num [specConvert, round_eq]

/-- Claim C3 amended: the capture conversion is truncation toward zero of
`sample * 32768` followed by 16-bit wraparound (JS `Int16Array` store
semantics), applied to every sample of the sent frame: `0.0` maps to `0`,
`-1.0` maps to `-32768` (the minimum), `1.0` also wraps to `-32768`
rather than clamping, and every sample strictly inside `(-1, 1)` maps to
`trunc(sample * 32768)` with no wraparound. -/
theorem capture_convert_amended :
    captureConvert 0 = 0
    ∧ captureConvert (-1) = -32768
    ∧ captureConvert 1 = -32768
    ∧ (∀ (capturedMuted : Bool) (s : AppState) (fr : List ℚ) (p : MediaPacket),
        onaudioprocessA capturedMuted s fr = some p → p.data = fr.map captureConvert)
    ∧ (∀ q : ℚ, -1 < q → q < 1 → captureConvert q = ratTrunc (q * 32768)) := by
  refine ⟨?_, ?_, ?_, ?_, ?_⟩
  · norm_num [captureConvert, ratTrunc, wrap16]
  · norm_num [captureConvert, ratTrunc, wrap16, Int.ceil_neg]
  · norm_num [captureConvert, ratTrunc, wrap16]
  · intro capturedMuted s fr p hp
    unfold onaudioprocessA at hp
    split at hp
    · exact absurd hp (by simp)
    · rw [Option.some.inj hp.symm]
  · intro q hq1 hq2
    have hx1 : (-32768 : ℚ) < q * 32768 := by nlinarith
    have hx2 : q * 32768 < 32768 := by nlinarith
    have hb : -32768 ≤ ratTrunc (q * 32768) ∧ ratTrunc (q * 32768) < 32768 := by
      unfold ratTrunc
      split
      case isTrue hpos =>
        constructor
        · have h0 : (0 : ℤ) ≤ ⌊q * 32768⌋ := Int.floor_nonneg.mpr hpos
          omega
        · have hf : (⌊q * 32768⌋ : ℚ) ≤ q * 32768 := Int.floor_le _
          have hlt : (⌊q * 32768⌋ : ℚ) < 32768 := lt_of_le_of_lt hf hx2
          exact_mod_cast hlt
      case isFalse hneg =>
        have hle : q * 32768 ≤ 0 := le_of_lt (lt_of_not_le hneg)
        constructor
        · have hc : (-32768 : ℚ) < (⌈q * 32768⌉ : ℚ) := lt_of_lt_of_le hx1 (Int.le_ceil _)
          have hc2 : (-32768 : ℤ) < ⌈q * 32768⌉ := by exact_mod_cast hc
          omega
        · have h0 : ⌈q * 32768⌉ ≤ 0 := Int.ceil_le.mpr (by exact_mod_cast hle)
          omega
    exact wrap16_eq_self _ hb.1 hb.2

/-- Witness for C3: the in-range sample `1/2` converts without
wraparound. -/
theorem capture_convert_amended_witness :
    captureConvert (1 / 2) = ratTrunc ((1 / 2 : ℚ) * 32768) :=
  capture_convert_amended.2.2.2.2 (1 / 2) (by norm_num) (by norm_num)

/-- Claim C5 (code bug): `processor.onaudioprocess` tests the `isMuted`
value captured by the closure created when `handleStart` wired the
callback, not the live component state, so muting mid-call does not stop
frames from being sent: from the connected (unmuted) state, after the
mute toggle flips the live state to muted, a capture frame is still
encoded and sent; had the callback read the live value, it would not
have been. -/
theorem mute_stale_closure_bug :
    connState.isMuted = false
    ∧ (toggleMute connState).isMuted = true
    ∧ (onaudioprocessA connState.isMuted (toggleMute connState) [0]).isSome = true
    ∧ onaudioprocessA (toggleMute connState).isMuted (toggleMute connState) [0] = none := by
  exact ⟨rfl, rfl, rfl, rfl⟩

/-- Claim C8 counterexample: stopping the recorder with an empty chunk
list still flips the ready flag and produces an (empty) artifact — the
`onstop` handler sets `hasAudioData` unconditionally. -/
theorem recording_flag_counterexample :
    connState.recordedChunks = []
    ∧ connState.hasAudioData = false
    ∧ (recorderOnstop connState).hasAudioData = true
    ∧ (recorderOnstop connState).audioUrl = some [] := by
  exact ⟨rfl, rfl, rfl, rfl⟩

/-- Claim C8 amended: at finalization the artifact is the concatenation
of whatever segments accumulated and the ready flag is set
unconditionally — also when no segment was captured, in which case the
artifact is empty but the flag is still set.  (The flag stays unset only
when the recorder never ran, since `onstop` fires once per recorder.) -/
theorem recording_finalize_amended (s : AppState) :
    (recorderOnstop s).audioUrl = some s.recordedChunks.flatten
    ∧ (recorderOnstop s).hasAudioData = true
    ∧ (s.recordedChunks = [] → (recorderOnstop s).audioUrl = some []) := by
  refine ⟨rfl, rfl, ?_⟩
  intro h
  simp [recorderOnstop, h]

/-- Witness for C8: finalizing from the mid-call state, whose chunk list
is empty. -/
theorem recording_finalize_amended_witness :
    (recorderOnstop connState).audioUrl = some [] :=
  (recording_finalize_amended connState).2.2 rfl
